import Mathlib

/-!
Shallow embedding of `src/weather_data_processor.py` (class `WeatherDataProcessor`).

Modelling decisions:
* A pandas DataFrame is modelled column-wise (`StationTable`): the always-present
  `Weather_station_ID` and `Message` columns, any other pre-existing columns, and the
  two derived columns `Measurement` / `Value`, which are `Option`al because they only
  exist after `process_messages` has run (pandas raises `KeyError` when a missing
  column is addressed).
* The Python `re` module is an external library: a compiled regex is modelled
  abstractly as a search function returning, on a match, its list of capture groups
  (`re.Match.groups()`), each group possibly `None`.
* Python `float(...)` applied to a captured numeric literal is modelled by `pyFloat`,
  a parser for plain decimal literals into `Rat` (exact arithmetic stands in for
  IEEE doubles; the claims under study do not depend on rounding).
* Python exceptions are modelled with `Except PyErr`; a Python method that returns
  normally with `None` yields `Except.ok` of a `none`-valued component.
* `read_from_web_CSV` (module `data_ingestion`, an external loading capability per
  the spec) is modelled by passing the loaded table as an explicit argument to
  `weather_station_mapping` / `process`.
* Logging is pure diagnostics and is not modelled.
-/

/-- Python exceptions that the embedded code can raise. -/
inductive PyErr where
  /-- `ValueError`, e.g. from unpacking `zip(*result)` with too few values,
      or from `float()` on a non-numeric string. -/
  | valueError : PyErr
  /-- `KeyError` on a missing DataFrame column, carrying the column name. -/
  | keyError : String → PyErr
  /-- `StopIteration` from `next()` on an exhausted generator. -/
  | stopIteration : PyErr
deriving Repr, DecidableEq

/-- Result of a successful `re.search`: the tuple `match.groups()`, where a group
that did not participate in the match is `none`. -/
structure ReMatch where
  groups : List (Option String)
deriving Repr, DecidableEq

/-- A compiled regular expression, modelled extensionally by its `re.search`
behaviour on a message: `none` when the pattern does not match, otherwise the
match object. -/
structure RePattern where
  search : String → Option ReMatch

/-- Interpret a list of decimal digit characters as a natural number;
`none` if the list is empty or contains a non-digit. -/
def digitsToNat (cs : List Char) : Option Nat :=
  match cs with
  | [] => none
  | _ =>
    cs.foldl
      (fun acc c =>
        match acc with
        | none => none
        | some n => if c.isDigit then some (n * 10 + (c.toNat - 48)) else none)
      (some 0)

/-- Split a character list at every dot, keeping the fragments in order
(the model of splitting a decimal literal into integer and fractional part). -/
def splitOnDot (cs : List Char) : List (List Char) :=
  match cs with
  | [] => [[]]
  | c :: rest =>
    if c = '.' then [] :: splitOnDot rest
    else
      match splitOnDot rest with
      | [] => [[c]]
      | h :: t => (c :: h) :: t

/-- Python `float(s)` restricted to the plain decimal literals (`12`, `12.5`)
that the configured regexes capture; `none` models a raised `ValueError`. -/
def pyFloat (s : String) : Option Rat :=
  match splitOnDot s.data with
  | [i] => (digitsToNat i).map (fun n => (n : Rat))
  | [i, f] =>
    match digitsToNat i, digitsToNat f with
    | some a, some b => some ((a : Rat) + (b : Rat) / (10 : Rat) ^ f.length)
    | _, _ => none
  | _ => none

/-- Column-wise model of the weather DataFrame.  `stationCol` and `messageCol`
are the `Weather_station_ID` and `Message` columns; `otherCols` are any further
pre-existing columns; `measurementCol` / `valueCol` are the derived `Measurement`
and `Value` columns, absent (`none`) until extraction has run. -/
structure StationTable where
  stationCol : List String
  messageCol : List String
  otherCols : List (String × List String)
  measurementCol : Option (List (Option String))
  valueCol : Option (List (Option Rat))
deriving Repr, DecidableEq

/-- State of a `WeatherDataProcessor` instance: the configured ordered pattern
set `self.patterns` (an insertion-ordered dict, modelled as an association list)
and `self.weather_df`, which starts out as `None`. -/
structure Processor where
  patterns : List (String × RePattern)
  weather_df : Option StationTable

/-- `weather_station_mapping`: assigns the externally loaded table to
`self.weather_df`.  The load itself (`read_from_web_CSV`) is the external
capability, so the loaded table is an explicit argument. -/
def weather_station_mapping (self : Processor) (loaded : StationTable) : Processor :=
  { self with weather_df := some loaded }

/-- The pattern loop of `extract_measurement`: for each `(key, pattern)` in
order, `re.search`; on the first match return
`(key, float(next(x for x in match.groups() if x is not None)))`, where an
exhausted `next` raises `StopIteration` and a failed `float` raises
`ValueError`; if no pattern matches return `(None, None)`. -/
def extractLoop : List (String × RePattern) → String →
    Except PyErr (Option String × Option Rat)
  | [], _ => .ok (none, none)
  | (key, pattern) :: rest, message =>
    match pattern.search message with
    | some m =>
      match m.groups.findSome? id with
      | none => .error .stopIteration
      | some g =>
        match pyFloat g with
        | none => .error .valueError
        | some v => .ok (some key, some v)
    | none => extractLoop rest message

/-- `WeatherDataProcessor.extract_measurement(self, message)`. -/
def extract_measurement (self : Processor) (message : String) :
    Except PyErr (Option String × Option Rat) :=
  extractLoop self.patterns message

/-- `self.weather_df['Message'].apply(self.extract_measurement)`: apply
extraction to every message in order; the first raised exception propagates. -/
def applyExtract (self : Processor) :
    List String → Except PyErr (List (Option String × Option Rat))
  | [] => .ok []
  | msg :: rest =>
    match extract_measurement self msg with
    | .error e => .error e
    | .ok kv =>
      match applyExtract self rest with
      | .error e => .error e
      | .ok kvs => .ok (kv :: kvs)

/-- Write the extraction results into the `Measurement` and `Value` columns
of a table (`self.weather_df['Measurement'], self.weather_df['Value'] = ...`),
overwriting them when they already exist. -/
def attachColumns (df : StationTable)
    (result : List (Option String × Option Rat)) : StationTable :=
  { df with
    measurementCol := some (result.map Prod.fst)
    valueCol := some (result.map Prod.snd) }

/-- `WeatherDataProcessor.process_messages(self)`:
if `self.weather_df` is not `None`, apply `extract_measurement` to every entry
of the `Message` column, then execute
`self.weather_df['Measurement'], self.weather_df['Value'] = zip(*result)` —
on an empty result, `zip()` yields nothing and unpacking into two targets
raises `ValueError`; otherwise the two derived columns are (over)written.
Returns the (possibly `None`) DataFrame together with the new state. -/
def process_messages (self : Processor) :
    Except PyErr (Processor × Option StationTable) :=
  match self.weather_df with
  | none => .ok (self, none)
  | some df =>
    match applyExtract self df.messageCol with
    | .error e => .error e
    | .ok [] => .error .valueError
    | .ok (kv :: kvs) =>
      .ok ({ self with weather_df := some (attachColumns df (kv :: kvs)) },
           some (attachColumns df (kv :: kvs)))

/-- Pair every row's station identifier with its `Measurement` / `Value`
entries and drop the rows whose `Measurement` key is `NaN` — pandas `groupby`
drops null group keys. -/
def keyedRows (stationCol : List String) (measCol : List (Option String))
    (valCol : List (Option Rat)) : List ((String × String) × Option Rat) :=
  (stationCol.zip (measCol.zip valCol)).filterMap
    (fun r => r.2.1.map (fun k => ((r.1, k), r.2.2)))

/-- Running sum and count of the non-null `Value` entries of one group,
as pandas `GroupBy.mean` accumulates them (`NaN` values are skipped). -/
def sumCountFor (keyed : List ((String × String) × Option Rat))
    (key : String × String) : Rat × Nat :=
  keyed.foldl
    (fun acc r =>
      if r.1 = key then
        match r.2 with
        | some v => (acc.1 + v, acc.2 + 1)
        | none => acc
      else acc)
    (0, 0)

/-- Mean of one group: sum divided by count, `none` (pandas `NaN`) when the
group has no non-null value. -/
def groupMean (keyed : List ((String × String) × Option Rat))
    (key : String × String) : Option Rat :=
  let sc := sumCountFor keyed key
  if sc.2 = 0 then none else some (sc.1 / (sc.2 : Rat))

/-- The distinct `(Weather_station_ID, Measurement)` group keys.  (pandas sorts
group keys; the key order is irrelevant here because the resulting table is
only ever read by key lookup, so any duplicate-free enumeration is faithful.) -/
def groupKeys (keyed : List ((String × String) × Option Rat)) :
    List (String × String) :=
  (keyed.map Prod.fst).dedup

/-- `WeatherDataProcessor.calculate_means(self)`:
`None` when `self.weather_df` is `None`; `KeyError` when the grouping or value
columns are missing (extraction has not run); otherwise the per-group means,
as the key-indexed table that `means.unstack()` presents. -/
def calculate_means (self : Processor) :
    Except PyErr (Option (List ((String × String) × Option Rat))) :=
  match self.weather_df with
  | none => .ok none
  | some df =>
    match df.measurementCol with
    | none => .error (.keyError "Measurement")
    | some measCol =>
      match df.valueCol with
      | none => .error (.keyError "Value")
      | some valCol =>
        let keyed := keyedRows df.stationCol measCol valCol
        .ok (some ((groupKeys keyed).map (fun key => (key, groupMean keyed key))))

/-- Read one cell of the means table: `none` when the `(station, kind)` group
does not appear at all, `some c` for the cell `c` (itself `none` for a pandas
`NaN` cell). -/
def meansLookup (tbl : List ((String × String) × Option Rat)) (s k : String) :
    Option (Option Rat) :=
  (tbl.find? (fun e => e.1 = (s, k))).map Prod.snd

/-- Specification-side characterization of one group's contributing values:
the `Value` entries of exactly those rows whose station is `s`, whose
`Measurement` is present and equal to `k`, and whose `Value` is present.
Used to state what `calculate_means` computes per group. -/
def specGroupValues (stationCol : List String) (measCol : List (Option String))
    (valCol : List (Option Rat)) (s k : String) : List Rat :=
  (stationCol.zip (measCol.zip valCol)).filterMap
    (fun r => if r.1 = s ∧ r.2.1 = some k then r.2.2 else none)

/-- `WeatherDataProcessor.process(self)`: `weather_station_mapping` then
`process_messages`; the method body has no `return` statement, so the Python
return value is `None` (the second component). -/
def process (self : Processor) (loaded : StationTable) :
    Except PyErr (Processor × Option StationTable) :=
  match process_messages (weather_station_mapping self loaded) with
  | .error e => .error e
  | .ok (self2, _) => .ok (self2, none)

/-! Concrete test fixtures, used to exercise the theorems below on explicit
inputs.  The two patterns model the configured regexes
`Rainfall: (\d+(\.\d+)?)\s?mm` and `Temperature: (\d+(\.\d+)?)\s?C` on the
specific messages appearing in the fixtures. -/

/-- Fixture: the `Rainfall` regex, which matches exactly the messages that
contain the letter `m` among the fixture messages, capturing groups
`("12", None)` as `re` would on the message `12 mm at 30 C` (the decimal
sub-group does not participate). -/
def mmPattern : RePattern :=
  ⟨fun s => if s.data.contains 'm' then some ⟨[some "12", none]⟩
            else none⟩

/-- Fixture: the `Temperature` regex, matching messages that contain `C`,
with the decimal sub-group unused (`None`). -/
def cPattern : RePattern :=
  ⟨fun s => if s.data.contains 'C' then some ⟨[some "30", none]⟩
            else none⟩

/-- Fixture: a one-row loaded table (station `S1`, message `12 mm at 30 C`),
before any extraction: the derived columns are absent. -/
def loadedTable : StationTable :=
  ⟨["S1"], ["12 mm at 30 C"], [("Elevation", ["120"])], none, none⟩

/-- Fixture: a freshly constructed processor — `weather_df` is `None`. -/
def procFresh : Processor :=
  ⟨[("Rainfall", mmPattern), ("Temperature", cPattern)], none⟩

/-- Fixture: a processor whose table is loaded but not yet extracted. -/
def procLoadedOnly : Processor :=
  ⟨[("Rainfall", mmPattern), ("Temperature", cPattern)], some loadedTable⟩

/-- Fixture: `loadedTable` after extraction (the row matches `Rainfall`
first, value `12`; the value is written as the `Nat.cast` image that
`pyFloat` produces). -/
def extractedTable : StationTable :=
  ⟨["S1"], ["12 mm at 30 C"], [("Elevation", ["120"])],
   some [some "Rainfall"], some [some (((12 : Nat) : Rat))]⟩

/-- Fixture: the processor state after `process_messages` on
`procLoadedOnly`. -/
def procExtracted : Processor :=
  ⟨[("Rainfall", mmPattern), ("Temperature", cPattern)], some extractedTable⟩

/-- Fixture: a loaded table with zero rows. -/
def emptyTable : StationTable := ⟨[], [], [], none, none⟩

/-- Fixture: a processor holding the zero-row loaded table. -/
def procEmptyLoaded : Processor :=
  ⟨[("Rainfall", mmPattern), ("Temperature", cPattern)], some emptyTable⟩

/-- Fixture: an extracted two-row table, both rows station `S1`, kind
`Rainfall`, with values `10.0` and `20.0`. -/
def meansTable : StationTable :=
  ⟨["S1", "S1"], ["10 mm", "20 mm"], [],
   some [some "Rainfall", some "Rainfall"],
   some [some (10 : Rat), some (20 : Rat)]⟩

/-- Fixture: a processor holding `meansTable`, ready for aggregation. -/
def procMeans : Processor :=
  ⟨[("Rainfall", mmPattern), ("Temperature", cPattern)], some meansTable⟩

/-- Helper: the pattern loop returns `(None, None)` when no listed pattern
matches the message. -/
theorem extractLoop_no_match (message : String) :
    ∀ ps : List (String × RePattern),
      (∀ q ∈ ps, q.2.search message = none) →
      extractLoop ps message = .ok (none, none) := by
  intro ps
  induction ps with
  | nil => intro _; rfl
  | cons q rest ih =>
    intro h
    obtain ⟨key, p⟩ := q
    have hq : p.search message = none := h (key, p) (List.mem_cons_self _ _)
    simp only [extractLoop, hq]
    exact ih (fun r hr => h r (List.mem_cons_of_mem _ hr))

/-- C6: for every message that matches none of the configured patterns,
`extract_measurement` returns `(None, None)`. -/
theorem extract_measurement_no_match (self : Processor) (message : String)
    (h : ∀ q ∈ self.patterns, q.2.search message = none) :
    extract_measurement self message = .ok (none, none) :=
  extractLoop_no_match message self.patterns h

/-- C6 witness: the fixture message `sunny` contains neither `mm` nor `C`,
so neither configured pattern matches and extraction yields `(None, None)`. -/
theorem extract_measurement_no_match_witness :
    (∀ q ∈ procFresh.patterns, q.2.search "sunny" = none) ∧
    extract_measurement procFresh "sunny" = .ok (none, none) := by
  have h : ∀ q ∈ procFresh.patterns, q.2.search "sunny" = none := by
    intro q hq
    simp only [procFresh, List.mem_cons, List.not_mem_nil, or_false] at hq
    rcases hq with h1 | h2
    · rw [h1]; rfl
    · rw [h2]; rfl
  exact ⟨h, extract_measurement_no_match procFresh "sunny" h⟩

/-- C4: if pattern `k` is the first pattern in configured order whose regex
matches the message (all earlier patterns fail to match), and its first
non-absent capture group parses as `v`, then `extract_measurement` returns
`(k, v)` — regardless of what the later patterns in `post` would do. -/
theorem extract_measurement_first_match (self : Processor) (message : String)
    (pre post : List (String × RePattern)) (k : String) (pk : RePattern)
    (m : ReMatch) (g : String) (v : Rat)
    (hps : self.patterns = pre ++ (k, pk) :: post)
    (hpre : ∀ q ∈ pre, q.2.search message = none)
    (hm : pk.search message = some m)
    (hg : m.groups.findSome? id = some g)
    (hv : pyFloat g = some v) :
    extract_measurement self message = .ok (some k, some v) := by
  unfold extract_measurement
  rw [hps]
  clear hps
  induction pre with
  | nil =>
    simp only [List.nil_append, extractLoop, hm, hg, hv]
  | cons q rest ih =>
    obtain ⟨key, p⟩ := q
    have hq : p.search message = none := hpre (key, p) (List.mem_cons_self _ _)
    simp only [List.cons_append, extractLoop, hq]
    exact ih (fun r hr => hpre r (List.mem_cons_of_mem _ hr))

/-- C4 witness: on `12 mm at 30 C` both configured patterns match, but
`Rainfall` comes first in the configured order, so the result kind is
`Rainfall` with value `12`, not `Temperature`. -/
theorem extract_measurement_first_match_witness :
    procFresh.patterns =
      [] ++ ("Rainfall", mmPattern) :: [("Temperature", cPattern)] ∧
    (∀ q ∈ ([] : List (String × RePattern)), q.2.search "12 mm at 30 C" = none) ∧
    mmPattern.search "12 mm at 30 C" = some ⟨[some "12", none]⟩ ∧
    cPattern.search "12 mm at 30 C" = some ⟨[some "30", none]⟩ ∧
    (ReMatch.mk [some "12", none]).groups.findSome? id = some "12" ∧
    pyFloat "12" = some ((12 : Nat) : Rat) ∧
    extract_measurement procFresh "12 mm at 30 C" =
      .ok (some "Rainfall", some ((12 : Nat) : Rat)) := by
  refine ⟨rfl, fun q hq => absurd hq (List.not_mem_nil q), rfl, rfl, rfl, rfl, ?_⟩
  exact extract_measurement_first_match procFresh "12 mm at 30 C" [] [("Temperature", cPattern)]
    "Rainfall" mmPattern ⟨[some "12", none]⟩ "12" ((12 : Nat) : Rat)
    rfl (fun q hq => absurd hq (List.not_mem_nil q)) rfl rfl rfl

/-- Helper: every normal return of the pattern loop is either a fully
present pair or the fully absent pair. -/
theorem extractLoop_all_or_nothing (message : String) :
    ∀ (ps : List (String × RePattern)) (k : Option String) (v : Option Rat),
      extractLoop ps message = .ok (k, v) →
      (k.isSome = true ∧ v.isSome = true) ∨ (k = none ∧ v = none) := by
  intro ps
  induction ps with
  | nil =>
    intro k v h
    simp only [extractLoop, Except.ok.injEq, Prod.mk.injEq] at h
    exact Or.inr ⟨h.1.symm, h.2.symm⟩
  | cons q rest ih =>
    intro k v h
    obtain ⟨key, p⟩ := q
    cases hs : p.search message with
    | none =>
      simp only [extractLoop, hs] at h
      exact ih k v h
    | some m =>
      cases hg : m.groups.findSome? id with
      | none =>
        simp only [extractLoop, hs, hg] at h
        exact Except.noConfusion h
      | some g =>
        cases hv : pyFloat g with
        | none =>
          simp only [extractLoop, hs, hg, hv] at h
          exact Except.noConfusion h
        | some x =>
          simp only [extractLoop, hs, hg, hv, Except.ok.injEq, Prod.mk.injEq] at h
          rw [← h.1, ← h.2]
          exact Or.inl ⟨rfl, rfl⟩

/-- C9: whenever `extract_measurement` returns normally, the resulting pair
is all-or-nothing: both components present, or both absent. -/
theorem extract_measurement_all_or_nothing (self : Processor) (message : String)
    (k : Option String) (v : Option Rat)
    (h : extract_measurement self message = .ok (k, v)) :
    (k.isSome = true ∧ v.isSome = true) ∨ (k = none ∧ v = none) :=
  extractLoop_all_or_nothing message self.patterns k v h

/-- C9 witness: on the matching fixture message the returned pair has both
components present. -/
theorem extract_measurement_all_or_nothing_witness :
    extract_measurement procFresh "12 mm at 30 C" =
      .ok (some "Rainfall", some ((12 : Nat) : Rat)) ∧
    (((some "Rainfall" : Option String).isSome = true ∧
      ((some ((12 : Nat) : Rat)) : Option Rat).isSome = true) ∨
     ((some "Rainfall" : Option String) = none ∧
      ((some ((12 : Nat) : Rat)) : Option Rat) = none)) := by
  have h : extract_measurement procFresh "12 mm at 30 C" =
      .ok (some "Rainfall", some ((12 : Nat) : Rat)) := rfl
  exact ⟨h, extract_measurement_all_or_nothing procFresh "12 mm at 30 C" _ _ h⟩

/-- C10: `extract_measurement` is a function of the configured pattern set
and the message alone: two processor states with equal pattern sets (however
much the rest of the state differs) produce identical results on every
message. -/
theorem extract_measurement_deterministic (p1 p2 : Processor) (message : String)
    (h : p1.patterns = p2.patterns) :
    extract_measurement p1 message = extract_measurement p2 message := by
  unfold extract_measurement
  rw [h]

/-- C10 witness: a fresh processor and a fully loaded one share the pattern
set and extract identically. -/
theorem extract_measurement_deterministic_witness :
    procFresh.patterns = procLoadedOnly.patterns ∧
    extract_measurement procFresh "12 mm at 30 C" =
      extract_measurement procLoadedOnly "12 mm at 30 C" :=
  ⟨rfl, extract_measurement_deterministic procFresh procLoadedOnly "12 mm at 30 C" rfl⟩

/-- Helper: extraction over a message list only depends on the pattern set. -/
theorem applyExtract_patterns_eq (p q : Processor) (hpq : p.patterns = q.patterns) :
    ∀ l : List String, applyExtract p l = applyExtract q l := by
  intro l
  induction l with
  | nil => rfl
  | cons msg rest ih =>
    have hone : extract_measurement p msg = extract_measurement q msg := by
      unfold extract_measurement
      rw [hpq]
    simp only [applyExtract, hone, ih]

/-- Helper: a successful extraction pass yields one result per message. -/
theorem applyExtract_ok_length (self : Processor) :
    ∀ (l : List String) (r : List (Option String × Option Rat)),
      applyExtract self l = .ok r → r.length = l.length := by
  intro l
  induction l with
  | nil =>
    intro r h
    simp only [applyExtract, Except.ok.injEq] at h
    rw [← h]
    rfl
  | cons msg rest ih =>
    intro r h
    cases he : extract_measurement self msg with
    | error e =>
      simp only [applyExtract, he] at h
      exact Except.noConfusion h
    | ok kv =>
      cases hr : applyExtract self rest with
      | error e =>
        simp only [applyExtract, he, hr] at h
        exact Except.noConfusion h
      | ok kvs =>
        simp only [applyExtract, he, hr, Except.ok.injEq] at h
        rw [← h]
        simp only [List.length_cons, ih kvs hr]

/-- Helper: `process_messages` on a processor whose table is `None`. -/
theorem process_messages_none (self : Processor) (hdf : self.weather_df = none) :
    process_messages self = .ok (self, none) := by
  unfold process_messages
  rw [hdf]

/-- Helper: `process_messages` on a processor with a loaded table, expressed
as a case split over the extraction pass. -/
theorem process_messages_some_eq (self : Processor) (df : StationTable)
    (hdf : self.weather_df = some df) :
    process_messages self =
      match applyExtract self df.messageCol with
      | .error e => .error e
      | .ok [] => .error .valueError
      | .ok (kv :: kvs) =>
        .ok ({ self with weather_df := some (attachColumns df (kv :: kvs)) },
             some (attachColumns df (kv :: kvs))) := by
  unfold process_messages
  rw [hdf]

/-- Helper: inversion of a successful `process_messages` run on a loaded
table: the extraction pass succeeded with a non-empty result, the returned
table is the input table with the two derived columns attached, and the new
state holds that same table. -/
theorem process_messages_ok_inv (self p1 : Processor) (df : StationTable)
    (r : Option StationTable)
    (hdf : self.weather_df = some df)
    (h : process_messages self = .ok (p1, r)) :
    ∃ result, applyExtract self df.messageCol = .ok result ∧
      result ≠ [] ∧
      r = some (attachColumns df result) ∧
      p1 = { self with weather_df := some (attachColumns df result) } := by
  rw [process_messages_some_eq self df hdf] at h
  cases hr : applyExtract self df.messageCol with
  | error e =>
    rw [hr] at h
    exact Except.noConfusion h
  | ok result =>
    rw [hr] at h
    cases result with
    | nil => exact Except.noConfusion h
    | cons kv kvs =>
      have h2 : ({ self with weather_df := some (attachColumns df (kv :: kvs)) },
          some (attachColumns df (kv :: kvs))) = (p1, r) := Except.ok.inj h
      refine ⟨kv :: kvs, rfl, List.cons_ne_nil kv kvs, ?_, ?_⟩
      · rw [← (Prod.mk.injEq _ _ _ _).mp h2 |>.2]
      · rw [← (Prod.mk.injEq _ _ _ _).mp h2 |>.1]

/-- C2 amended: `process_messages` applied to a loaded table with zero rows
does not return the table unchanged — unpacking `zip(*result)` of the empty
extraction result raises `ValueError`. -/
theorem process_messages_empty_errors (self : Processor) (df : StationTable)
    (hdf : self.weather_df = some df) (hempty : df.messageCol = []) :
    process_messages self = .error .valueError := by
  rw [process_messages_some_eq self df hdf, hempty]
  exact rfl

/-- C2 counterexample: on a processor holding a zero-row loaded table,
`process_messages` raises `ValueError` instead of succeeding with the
unchanged empty table, refuting the claim that it is defined for an empty
table. -/
theorem process_messages_empty_cex :
    process_messages procEmptyLoaded = .error .valueError := rfl

/-- C2 witness for the amended claim, at the zero-row fixture table. -/
theorem process_messages_empty_errors_witness :
    procEmptyLoaded.weather_df = some emptyTable ∧
    emptyTable.messageCol = [] ∧
    process_messages procEmptyLoaded = .error .valueError :=
  ⟨rfl, rfl, process_messages_empty_errors procEmptyLoaded emptyTable rfl rfl⟩

/-- C8: a successful `process_messages` run leaves every pre-existing column
(`Weather_station_ID`, `Message`, and all other columns) and the row order
unchanged: the only change is the addition (or overwrite) of the
`Measurement` and `Value` columns, one entry per row. -/
theorem process_messages_frame (self p1 : Processor) (df df1 : StationTable)
    (hdf : self.weather_df = some df)
    (h : process_messages self = .ok (p1, some df1)) :
    df1.stationCol = df.stationCol ∧ df1.messageCol = df.messageCol ∧
    df1.otherCols = df.otherCols ∧
    ∃ mc vc, df1.measurementCol = some mc ∧ df1.valueCol = some vc ∧
      mc.length = df.messageCol.length ∧ vc.length = df.messageCol.length := by
  obtain ⟨result, hres, hne, hr, hp⟩ :=
    process_messages_ok_inv self p1 df (some df1) hdf h
  have hdf1 : df1 = attachColumns df result := Option.some.inj hr
  have hlen := applyExtract_ok_length self df.messageCol result hres
  subst hdf1
  refine ⟨rfl, rfl, rfl, result.map Prod.fst, result.map Prod.snd, rfl, rfl, ?_, ?_⟩
  · rw [List.length_map, hlen]
  · rw [List.length_map, hlen]

/-- C8 witness: the frame property at the one-row fixture. -/
theorem process_messages_frame_witness :
    procLoadedOnly.weather_df = some loadedTable ∧
    process_messages procLoadedOnly = .ok (procExtracted, some extractedTable) ∧
    (extractedTable.stationCol = loadedTable.stationCol ∧
     extractedTable.messageCol = loadedTable.messageCol ∧
     extractedTable.otherCols = loadedTable.otherCols ∧
     ∃ mc vc, extractedTable.measurementCol = some mc ∧
       extractedTable.valueCol = some vc ∧
       mc.length = loadedTable.messageCol.length ∧
       vc.length = loadedTable.messageCol.length) := by
  have h : process_messages procLoadedOnly = .ok (procExtracted, some extractedTable) := rfl
  exact ⟨rfl, h,
    process_messages_frame procLoadedOnly procExtracted loadedTable extractedTable rfl h⟩

/-- C7: `process_messages` is idempotent on the derived columns: a second run
on the state produced by a successful first run succeeds and produces the
same `Measurement` and `Value` columns again. -/
theorem process_messages_idempotent (self p1 : Processor) (df1 : StationTable)
    (h : process_messages self = .ok (p1, some df1)) :
    ∃ p2 df2, process_messages p1 = .ok (p2, some df2) ∧
      df2.measurementCol = df1.measurementCol ∧
      df2.valueCol = df1.valueCol := by
  cases hdf : self.weather_df with
  | none =>
    rw [process_messages_none self hdf] at h
    have h2 : (self, (none : Option StationTable)) = (p1, some df1) := Except.ok.inj h
    exact Option.noConfusion ((Prod.mk.injEq _ _ _ _).mp h2).2
  | some df =>
    obtain ⟨result, hres, hne, hr, hp⟩ :=
      process_messages_ok_inv self p1 df (some df1) hdf h
    have hdf1 : df1 = attachColumns df result := Option.some.inj hr
    have hp1df : p1.weather_df = some (attachColumns df result) := by rw [hp]
    have hpat : p1.patterns = self.patterns := by rw [hp]
    have hres2 : applyExtract p1 (attachColumns df result).messageCol = .ok result := by
      have hmsg : (attachColumns df result).messageCol = df.messageCol := rfl
      rw [hmsg, applyExtract_patterns_eq p1 self hpat, hres]
    cases result with
    | nil => exact absurd rfl hne
    | cons kv kvs =>
      refine ⟨⟨p1.patterns,
          some (attachColumns (attachColumns df (kv :: kvs)) (kv :: kvs))⟩,
        attachColumns (attachColumns df (kv :: kvs)) (kv :: kvs), ?_, ?_, ?_⟩
      · rw [process_messages_some_eq p1 (attachColumns df (kv :: kvs)) hp1df, hres2]
      · rw [hdf1]; rfl
      · rw [hdf1]; rfl

/-- C7 witness: idempotence at the one-row fixture. -/
theorem process_messages_idempotent_witness :
    process_messages procLoadedOnly = .ok (procExtracted, some extractedTable) ∧
    (∃ p2 df2, process_messages procExtracted = .ok (p2, some df2) ∧
      df2.measurementCol = extractedTable.measurementCol ∧
      df2.valueCol = extractedTable.valueCol) := by
  have h : process_messages procLoadedOnly = .ok (procExtracted, some extractedTable) := rfl
  exact ⟨h, process_messages_idempotent procLoadedOnly procExtracted extractedTable h⟩

/-- C1 amended: `process` runs the Loader and then the Extractor in sequence,
and on success the processor state holds the augmented table (pre-existing
columns preserved, `Measurement` / `Value` present) — but the method body has
no `return` statement, so `process` itself returns `None`, not the augmented
`StationTable`. -/
theorem process_runs_pipeline (self : Processor) (loaded : StationTable)
    (p2 : Processor) (ret : Option StationTable)
    (h : process self loaded = .ok (p2, ret)) :
    ret = none ∧
    ∃ df1, p2.weather_df = some df1 ∧
      df1.stationCol = loaded.stationCol ∧
      df1.messageCol = loaded.messageCol ∧
      df1.otherCols = loaded.otherCols ∧
      df1.measurementCol.isSome = true ∧
      df1.valueCol.isSome = true := by
  unfold process at h
  cases hpm : process_messages (weather_station_mapping self loaded) with
  | error e =>
    rw [hpm] at h
    exact Except.noConfusion h
  | ok pr =>
    obtain ⟨p1, r⟩ := pr
    rw [hpm] at h
    have h2 : (p1, (none : Option StationTable)) = (p2, ret) := Except.ok.inj h
    have h3 := (Prod.mk.injEq _ _ _ _).mp h2
    obtain ⟨result, hres, hne, hrr, hp⟩ :=
      process_messages_ok_inv (weather_station_mapping self loaded) p1 loaded r
        rfl hpm
    refine ⟨h3.2.symm, attachColumns loaded result, ?_, rfl, rfl, rfl, rfl, rfl⟩
    rw [← h3.1, hp]

/-- C1 counterexample: on a concrete run that loads and extracts
successfully, the value returned by `process` is `None` (first conjunct),
while the augmented table does exist in the processor state (second
conjunct) — so `process` does not return the augmented `StationTable`. -/
theorem process_return_value_cex :
    (process procFresh loadedTable).map Prod.snd = .ok none ∧
    (process procFresh loadedTable).map (fun r => r.1.weather_df.isSome) = .ok true :=
  ⟨rfl, rfl⟩

/-- C1 witness for the amended claim, at the one-row fixture. -/
theorem process_runs_pipeline_witness :
    process procFresh loadedTable = .ok (procExtracted, none) ∧
    ((none : Option StationTable) = none ∧
     ∃ df1, procExtracted.weather_df = some df1 ∧
       df1.stationCol = loadedTable.stationCol ∧
       df1.messageCol = loadedTable.messageCol ∧
       df1.otherCols = loadedTable.otherCols ∧
       df1.measurementCol.isSome = true ∧
       df1.valueCol.isSome = true) := by
  have h : process procFresh loadedTable = .ok (procExtracted, none) := rfl
  exact ⟨h, process_runs_pipeline procFresh loadedTable procExtracted none h⟩

/-- C3 amended: called before `load` (no table), `calculate_means` returns
the explicit uninitialized result `None` rather than a silently empty or
zero table; but called after `load` and before extraction, it does not
report a `NotLoadedError`-style failure — it raises a `KeyError` for the
missing `Measurement` column. -/
theorem calculate_means_prerequisite_behavior :
    (∀ self : Processor, self.weather_df = none →
      calculate_means self = .ok none) ∧
    (∀ (self : Processor) (df : StationTable),
      self.weather_df = some df → df.measurementCol = none →
      calculate_means self = .error (.keyError "Measurement")) := by
  constructor
  · intro self hdf
    unfold calculate_means
    rw [hdf]
  · intro self df hdf hm
    simp only [calculate_means, hdf, hm]

/-- C3 counterexample: on a processor whose table is loaded but on which
extraction has not yet run, `calculate_means` crashes with a `KeyError` on
the missing `Measurement` field — refuting the claim that it never crashes
from a missing field. -/
theorem calculate_means_missing_column_cex :
    calculate_means procLoadedOnly = .error (.keyError "Measurement") := rfl

/-- C3 witness for the amended claim: a fresh processor returns the explicit
`None`, and a loaded-but-unextracted processor raises the `KeyError`. -/
theorem calculate_means_prerequisite_behavior_witness :
    (procFresh.weather_df = none ∧ calculate_means procFresh = .ok none) ∧
    (procLoadedOnly.weather_df = some loadedTable ∧
     loadedTable.measurementCol = none ∧
     calculate_means procLoadedOnly = .error (.keyError "Measurement")) :=
  ⟨⟨rfl, calculate_means_prerequisite_behavior.1 procFresh rfl⟩,
   ⟨rfl, rfl,
    calculate_means_prerequisite_behavior.2 procLoadedOnly loadedTable rfl rfl⟩⟩

/-- Helper: selecting one group out of the keyed rows gives exactly the
specification-side list of contributing values. -/
theorem keyedRows_filter_eq (st : List String) (mc : List (Option String))
    (vc : List (Option Rat)) (s k : String) :
    (keyedRows st mc vc).filterMap
      (fun e => if e.1 = (s, k) then e.2 else none) =
    specGroupValues st mc vc s k := by
  unfold keyedRows specGroupValues
  rw [List.filterMap_filterMap]
  congr 1
  funext r
  obtain ⟨a, b, c⟩ := r
  cases b with
  | none => simp
  | some k2 =>
    by_cases hk : k2 = k
    · subst hk
      by_cases ha : a = s
      · subst ha
        simp
      · simp [ha, Prod.ext_iff]
    · simp [hk, Prod.ext_iff]

/-- Helper: the sum-and-count fold of one group equals the sum and length of
that group's contributing values. -/
theorem sumCount_foldl (key : String × String) :
    ∀ (l : List ((String × String) × Option Rat)) (a : Rat) (n : Nat),
      l.foldl
        (fun acc r =>
          if r.1 = key then
            match r.2 with
            | some v => (acc.1 + v, acc.2 + 1)
            | none => acc
          else acc) (a, n) =
      (a + (l.filterMap (fun e => if e.1 = key then e.2 else none)).sum,
       n + (l.filterMap (fun e => if e.1 = key then e.2 else none)).length) := by
  intro l
  induction l with
  | nil =>
    intro a n
    simp
  | cons e rest ih =>
    intro a n
    obtain ⟨ek, ev⟩ := e
    by_cases hk : ek = key
    · cases ev with
      | none =>
        simp only [List.foldl_cons, List.filterMap_cons, hk, if_pos]
        exact ih a n
      | some v =>
        simp only [List.foldl_cons, List.filterMap_cons, hk, if_pos]
        rw [ih (a + v) (n + 1)]
        rw [Prod.mk.injEq]
        constructor
        · rw [List.sum_cons]
          ring
        · rw [List.length_cons]
          omega
    · simp only [List.foldl_cons, List.filterMap_cons, hk, if_neg, ite_false]
      exact ih a n

/-- Helper: `sumCountFor` computes the sum and the count of one group's
contributing values. -/
theorem sumCountFor_eq (keyed : List ((String × String) × Option Rat))
    (key : String × String) :
    sumCountFor keyed key =
      ((keyed.filterMap (fun e => if e.1 = key then e.2 else none)).sum,
       (keyed.filterMap (fun e => if e.1 = key then e.2 else none)).length) := by
  unfold sumCountFor
  rw [sumCount_foldl key keyed 0 0]
  rw [Prod.mk.injEq]
  constructor
  · rw [zero_add]
  · rw [Nat.zero_add]

/-- Helper: a group with at least one contributing value appears among the
group keys. -/
theorem mem_groupKeys_of_vals_ne_nil
    (keyed : List ((String × String) × Option Rat)) (key : String × String)
    (h : keyed.filterMap (fun e => if e.1 = key then e.2 else none) ≠ []) :
    key ∈ groupKeys keyed := by
  unfold groupKeys
  rw [List.mem_dedup]
  by_contra hmem
  apply h
  rw [List.filterMap_eq_nil_iff]
  intro e he
  by_cases hek : e.1 = key
  · exact absurd (List.mem_map.mpr ⟨e, he, hek⟩) hmem
  · simp [hek]

/-- Helper: looking up a key in a table built by mapping a function over a
key list that contains it yields that key's value. -/
theorem find_on_keyMap (f : String × String → Option Rat) (key : String × String) :
    ∀ ks : List (String × String), key ∈ ks →
      (ks.map (fun k0 => (k0, f k0))).find? (fun e => e.1 = key) =
        some (key, f key) := by
  intro ks
  induction ks with
  | nil => intro h; exact absurd h (List.not_mem_nil key)
  | cons k0 rest ih =>
    intro h
    by_cases h0 : k0 = key
    · subst h0
      rw [List.map_cons]
      rw [List.find?_cons_of_pos _ (by simp)]
    · have hmem : key ∈ rest := by
        rcases List.mem_cons.mp h with h1 | h2
        · exact absurd h1.symm h0
        · exact h2
      rw [List.map_cons]
      rw [List.find?_cons_of_neg _ (by simp [h0])]
      exact ih hmem

/-- C5: `calculate_means` groups rows by `(Weather_station_ID, Measurement)`,
ignoring rows whose `Measurement` or `Value` is absent, and for every group
with at least one contributing value the resulting cell is the arithmetic
mean — the sum of the group's `Value` entries divided by their count. -/
theorem calculate_means_group_mean (self : Processor) (df : StationTable)
    (measCol : List (Option String)) (valCol : List (Option Rat)) (s k : String)
    (hdf : self.weather_df = some df)
    (hm : df.measurementCol = some measCol)
    (hv : df.valueCol = some valCol)
    (hne : specGroupValues df.stationCol measCol valCol s k ≠ []) :
    ∃ tbl, calculate_means self = .ok (some tbl) ∧
      meansLookup tbl s k =
        some (some ((specGroupValues df.stationCol measCol valCol s k).sum /
          ((specGroupValues df.stationCol measCol valCol s k).length : Rat))) := by
  refine ⟨(groupKeys (keyedRows df.stationCol measCol valCol)).map
      (fun key => (key, groupMean (keyedRows df.stationCol measCol valCol) key)),
    ?_, ?_⟩
  · simp only [calculate_means, hdf, hm, hv]
  · have hfilter : (keyedRows df.stationCol measCol valCol).filterMap
        (fun e => if e.1 = (s, k) then e.2 else none) =
        specGroupValues df.stationCol measCol valCol s k :=
      keyedRows_filter_eq df.stationCol measCol valCol s k
    have hmem : (s, k) ∈ groupKeys (keyedRows df.stationCol measCol valCol) :=
      mem_groupKeys_of_vals_ne_nil _ (s, k) (by rw [hfilter]; exact hne)
    unfold meansLookup
    rw [find_on_keyMap (groupMean (keyedRows df.stationCol measCol valCol)) (s, k)
      (groupKeys (keyedRows df.stationCol measCol valCol)) hmem]
    simp only [Option.map_some']
    simp only [groupMean, sumCountFor_eq, hfilter]
    rw [if_neg (fun h0 => hne (List.length_eq_zero.mp h0))]

/-- C5 witness: a two-row table for station `S1`, kind `Rainfall`, with
values `10.0` and `20.0` yields the mean `15.0` for `(S1, Rainfall)`. -/
theorem calculate_means_group_mean_witness :
    specGroupValues meansTable.stationCol [some "Rainfall", some "Rainfall"]
      [some (10 : Rat), some (20 : Rat)] "S1" "Rainfall" ≠ [] ∧
    ∃ tbl, calculate_means procMeans = .ok (some tbl) ∧
      meansLookup tbl "S1" "Rainfall" = some (some (15 : Rat)) := by
  have hval : specGroupValues meansTable.stationCol
      [some "Rainfall", some "Rainfall"] [some (10 : Rat), some (20 : Rat)]
      "S1" "Rainfall" = [(10 : Rat), 20] := rfl
  have hne : specGroupValues meansTable.stationCol
      [some "Rainfall", some "Rainfall"] [some (10 : Rat), some (20 : Rat)]
      "S1" "Rainfall" ≠ [] := by
    rw [hval]
    exact List.cons_ne_nil _ _
  obtain ⟨tbl, h1, h2⟩ := calculate_means_group_mean procMeans meansTable
    [some "Rainfall", some "Rainfall"] [some (10 : Rat), some (20 : Rat)]
    "S1" "Rainfall" rfl rfl rfl hne
  refine ⟨hne, tbl, h1, ?_⟩
  rw [h2, hval]
  norm_num
